import Mathlib

/-!
Shallow embedding of the DMG emulator (Ikerlb/gb-emu) in Lean 4, together with
theorems settling the frozen claims about its specification.

Conventions of the embedding:
* Rust `u8`/`u16` values are `Nat`; truncating casts become `% 256` / `% 65536`,
  and wrapping arithmetic becomes addition followed by the same modulus.
* Bit operations on contiguous low masks are translated arithmetically so that
  `omega` can reason about them: `x & 0x1F` is `x % 32`, `x >> 4` is `x / 16`,
  `x & 0x80 != 0` is `x / 128 % 2 = 1`, and `(hi << 8) | lo` with `lo < 256`
  is `hi * 256 + lo`.  Each such translation is noted next to the definition.
* `Vec<u8>` becomes `Bytes` (a length plus a contents function); `Vec::get`
  is `Bytes.get`, returning `Option`.
* Functions that can `panic!` in Rust return `Option`, with `none` for the panic.
* Rust methods taking `&mut self` become functions returning the updated state.
-/

set_option maxRecDepth 8192

namespace GbEmu

/-- Byte vector (Rust `Vec<u8>`): a length together with the byte at each index. -/
structure Bytes where
  size : Nat
  data : Nat → Nat

/-- Rust slice/`Vec` `get`: `some` byte when in bounds, else `none`. -/
def Bytes.get (b : Bytes) (i : Nat) : Option Nat :=
  if i < b.size then some (b.data i) else none

/-! ## Register pairs (src/gb/register.rs) -/

/-- Paired 8-bit registers, e.g. HL with H = hi, L = lo. -/
structure Register where
  hi : Nat
  lo : Nat

/-- Register::new.  NOTE: translated exactly as written in the source:
`hi` receives `num as u8` (the LOW byte) and `lo` receives `(num>>8) as u8`
(the HIGH byte) — the reverse of `Register.set`. -/
def Register.new (num : Nat) : Register :=
  { hi := num % 256, lo := num / 256 % 256 }

/-- Register::set: `lo = num as u8`, `hi = (num>>8) as u8`. -/
def Register.set (_r : Register) (num : Nat) : Register :=
  { lo := num % 256, hi := num / 256 % 256 }

/-- Register::get: `((hi as u16) << 8) | (lo as u16)`; with `lo < 256` the
disjoint-bit `|` is addition. -/
def Register.get (r : Register) : Nat :=
  r.hi * 256 + r.lo

def Register.get_hi (r : Register) : Nat := r.hi
def Register.get_lo (r : Register) : Nat := r.lo
def Register.set_hi (r : Register) (v : Nat) : Register := { r with hi := v % 256 }
def Register.set_lo (r : Register) (v : Nat) : Register := { r with lo := v % 256 }

/-! ## Joypad (src/gb/joypad.rs) -/

inductive Button where
  | Right | Left | Up | Down | A | B | Select | Start

structure Joypad where
  direction_buttons : Nat
  action_buttons : Nat
  select : Nat

def Joypad.new : Joypad :=
  { direction_buttons := 0x0F, action_buttons := 0x0F, select := 0x30 }

/-- Joypad::read.  `0xCF` has bits 4–5 clear, and `select` only holds bits 4–5,
so the `(result & 0xCF) | (select & 0x30)` merge is addition; the nibble merge
`(result & 0xF0) | (buttons & 0x0F)` likewise. -/
def Joypad.read (j : Joypad) : Nat :=
  let select_direction := j.select / 16 % 2 = 0
  let select_action := j.select / 32 % 2 = 0
  let result := 0xCF + j.select % 64 / 16 * 16
  let buttons := 0x0F
  let buttons := if select_direction then buttons &&& j.direction_buttons else buttons
  let buttons := if select_action then buttons &&& j.action_buttons else buttons
  result / 16 * 16 + buttons % 16

/-- Joypad::write: only bits 4–5 are kept (`value & 0x30`). -/
def Joypad.write (j : Joypad) (value : Nat) : Joypad :=
  { j with select := value / 16 % 4 * 16 }

/-! ## Timer (src/gb/timer.rs) -/

/-- TIMER_CLOCKS array, indexed by TAC bits 1–0. -/
def TIMER_CLOCKS (i : Nat) : Nat :=
  match i with
  | 0 => 1024
  | 1 => 16
  | 2 => 64
  | _ => 256

theorem TIMER_CLOCKS_pos (i : Nat) : 0 < TIMER_CLOCKS i := by
  unfold TIMER_CLOCKS
  split <;> omega

structure Timer where
  div_counter : Nat
  tima : Nat
  tma : Nat
  tac : Nat
  tima_counter : Nat
  interrupt_requested : Bool

def Timer.new : Timer :=
  { div_counter := 0, tima := 0, tma := 0, tac := 0, tima_counter := 0,
    interrupt_requested := false }

/-- TIMA increment loop of Timer::step: `while tima_counter >= threshold`.
`clock` is the TAC clock-select (`tac & 0x03`), so the threshold is positive.
`overflowing_add(1)` on a `u8` overflows exactly when `tima = 255`. -/
def Timer.step_loop (tima tma clock acc : Nat) (irq : Bool) : Nat × Nat × Bool :=
  if h : TIMER_CLOCKS clock ≤ acc then
    if tima = 255 then
      Timer.step_loop tma tma clock (acc - TIMER_CLOCKS clock) true
    else
      Timer.step_loop (tima + 1) tma clock (acc - TIMER_CLOCKS clock) irq
  else
    (tima, acc, irq)
termination_by acc
decreasing_by
  all_goals exact Nat.sub_lt (Nat.lt_of_lt_of_le (TIMER_CLOCKS_pos clock) h) (TIMER_CLOCKS_pos clock)

/-- Timer::step.  DIV wraps as a `u16` (`wrapping_add(cycles as u16)`);
`tac & 0x04 != 0` is `tac / 4 % 2 = 1`; `tac & 0x03` is `tac % 4`. -/
def Timer.step (t : Timer) (cycles : Nat) : Timer :=
  let t := { t with div_counter := (t.div_counter + cycles % 65536) % 65536 }
  if t.tac / 4 % 2 = 1 then
    let r := Timer.step_loop t.tima t.tma (t.tac % 4) (t.tima_counter + cycles)
      t.interrupt_requested
    { t with tima := r.1, tima_counter := r.2.1, interrupt_requested := r.2.2 }
  else
    t

/-- Timer::read; `tac | 0xF8` sets bits 3–7, so it is `tac % 8 + 0xF8`. -/
def Timer.read (t : Timer) (addr : Nat) : Nat :=
  if addr = 0xFF04 then t.div_counter / 256
  else if addr = 0xFF05 then t.tima
  else if addr = 0xFF06 then t.tma
  else if addr = 0xFF07 then t.tac % 8 + 0xF8
  else 0xFF

/-- Timer::write; the TAC arm keeps only bits 0–2 (`val & 0x07`). -/
def Timer.write (t : Timer) (addr val : Nat) : Timer :=
  if addr = 0xFF04 then { t with div_counter := 0 }
  else if addr = 0xFF05 then { t with tima := val % 256 }
  else if addr = 0xFF06 then { t with tma := val % 256 }
  else if addr = 0xFF07 then
    let t := if t.tac % 4 ≠ val % 4 then { t with tima_counter := 0 } else t
    { t with tac := val % 8 }
  else t

def Timer.clear_interrupt (t : Timer) : Timer :=
  { t with interrupt_requested := false }

/-! ## PPU (src/gb/ppu.rs)

The framebuffer and the three `render_*_scanline` helpers are not modelled:
they read registers and VRAM/OAM but write only `self.framebuffer`, so every
field modelled here evolves exactly as in the source. -/

inductive PpuMode where
  | HBlank | VBlank | OamScan | Drawing
deriving DecidableEq

structure Ppu where
  ly : Nat
  scanline_cycles : Nat
  mode : PpuMode
  lyc : Nat
  lcdc : Nat
  stat : Nat
  scy : Nat
  scx : Nat
  bgp : Nat
  obp0 : Nat
  obp1 : Nat
  wy : Nat
  wx : Nat
  frame_ready : Bool

def Ppu.new : Ppu :=
  { ly := 0, scanline_cycles := 0, mode := PpuMode.OamScan, lyc := 0,
    lcdc := 0x91, stat := 0, scy := 0, scx := 0, bgp := 0xFC,
    obp0 := 0xFF, obp1 := 0xFF, wy := 0, wx := 0, frame_ready := false }

/-- Ppu::lcd_enabled: `lcdc & 0x80 != 0`, i.e. bit 7. -/
def Ppu.lcd_enabled (p : Ppu) : Bool :=
  p.lcdc / 128 % 2 = 1

/-- Ppu::update_mode. -/
def Ppu.update_mode (p : Ppu) : Ppu :=
  { p with mode :=
      if 144 ≤ p.ly then PpuMode.VBlank
      else if p.scanline_cycles < 80 then PpuMode.OamScan
      else if p.scanline_cycles < 252 then PpuMode.Drawing
      else PpuMode.HBlank }

/-- The `while scanline_cycles >= 456` loop of Ppu::step, threading the
`entered_vblank` accumulator.  The scanline render call only writes the
(unmodelled) framebuffer. -/
def Ppu.stepLoop (p : Ppu) (entered : Bool) : Ppu × Bool :=
  if h : 456 ≤ p.scanline_cycles then
    let p1 := { p with scanline_cycles := p.scanline_cycles - 456,
                       ly := (p.ly + 1) % 154 }
    if (p.ly + 1) % 154 = 144 ∧ p.ly ≠ 144 then
      Ppu.stepLoop { p1 with frame_ready := true } true
    else
      Ppu.stepLoop p1 entered
  else
    (p, entered)
termination_by p.scanline_cycles
decreasing_by all_goals omega

/-- Ppu::step: returns the new state and whether VBlank was just entered. -/
def Ppu.step (p : Ppu) (cycles : Nat) : Ppu × Bool :=
  if p.lcd_enabled = false then
    (p, false)
  else
    let r := Ppu.stepLoop { p with scanline_cycles := p.scanline_cycles + cycles } false
    (r.1.update_mode, r.2)

/-- Ppu::read.  The STAT arm merges disjoint bit ranges, so `|` is addition:
`stat & 0xF8` is `stat / 8 % 32 * 8`, the LYC flag contributes 4, the mode 0–3. -/
def Ppu.read (p : Ppu) (addr : Nat) : Nat :=
  if addr = 0xFF40 then p.lcdc
  else if addr = 0xFF41 then
    let lyc_flag := if p.ly = p.lyc then 4 else 0
    let mode_bits : Nat :=
      match p.mode with
      | PpuMode.HBlank => 0
      | PpuMode.VBlank => 1
      | PpuMode.OamScan => 2
      | PpuMode.Drawing => 3
    p.stat / 8 % 32 * 8 + lyc_flag + mode_bits
  else if addr = 0xFF42 then p.scy
  else if addr = 0xFF43 then p.scx
  else if addr = 0xFF44 then p.ly
  else if addr = 0xFF45 then p.lyc
  else if addr = 0xFF47 then p.bgp
  else if addr = 0xFF48 then p.obp0
  else if addr = 0xFF49 then p.obp1
  else if addr = 0xFF4A then p.wy
  else if addr = 0xFF4B then p.wx
  else 0xFF

/-- Ppu::write_lcdc: on a 1→0 transition of bit 7, reset LY, the cycle
accumulator and the mode. -/
def Ppu.write_lcdc (p : Ppu) (val : Nat) : Ppu :=
  let was_enabled := p.lcd_enabled
  let p := { p with lcdc := val % 256 }
  if was_enabled = true ∧ p.lcd_enabled = false then
    { p with ly := 0, scanline_cycles := 0, mode := PpuMode.HBlank }
  else p

/-- Ppu::write.  The STAT arm `(stat & 0x07) | (val & 0x78)` merges the
disjoint ranges bits 0–2 and 3–6, so `|` is addition. -/
def Ppu.write (p : Ppu) (addr val : Nat) : Ppu :=
  if addr = 0xFF40 then p.write_lcdc val
  else if addr = 0xFF41 then { p with stat := p.stat % 8 + val / 8 % 16 * 8 }
  else if addr = 0xFF42 then { p with scy := val % 256 }
  else if addr = 0xFF43 then { p with scx := val % 256 }
  else if addr = 0xFF44 then p
  else if addr = 0xFF45 then { p with lyc := val % 256 }
  else if addr = 0xFF47 then { p with bgp := val % 256 }
  else if addr = 0xFF48 then { p with obp0 := val % 256 }
  else if addr = 0xFF49 then { p with obp1 := val % 256 }
  else if addr = 0xFF4A then { p with wy := val % 256 }
  else if addr = 0xFF4B then { p with wx := val % 256 }
  else p

/-! ## Cartridge mappers (src/gb/mbc/) -/

/-- MBC0 (src/gb/mbc/mbc0.rs): plain ROM, writes ignored. -/
structure Mbc0 where
  rom : Bytes

def Mbc0.read (m : Mbc0) (addr : Nat) : Nat :=
  if addr ≤ 0x7FFF then ((m.rom.get addr).getD 0xFF) else 0xFF

/-- MBC1 (src/gb/mbc/mbc1.rs). -/
structure Mbc1 where
  rom : Bytes
  ram : Bytes
  rom_bank : Nat
  ram_bank : Nat
  ram_enabled : Bool
  banking_mode : Nat
  has_battery : Bool

def Mbc1.new (rom : Bytes) (ram_size : Nat) (has_battery : Bool) : Mbc1 :=
  { rom := rom, ram := { size := ram_size, data := fun _ => 0 },
    rom_bank := 1, ram_bank := 0, ram_enabled := false, banking_mode := 0,
    has_battery := has_battery }

/-- Mbc1::effective_rom_bank.  `rom_bank & 0x1F` is `rom_bank % 32`;
`| (ram_bank << 5)` merges disjoint bits, so it is `+ ram_bank * 32`;
when the low five bits are zero, `bank | 1` is `bank + 1`. -/
def Mbc1.effective_rom_bank (m : Mbc1) : Nat :=
  let bank :=
    if m.banking_mode = 0 then m.rom_bank % 32 + m.ram_bank * 32
    else m.rom_bank % 32
  if bank % 32 = 0 then bank + 1 else bank

def Mbc1.effective_ram_bank (m : Mbc1) : Nat :=
  if m.banking_mode = 1 then m.ram_bank else 0

/-- Mbc1::read; `(ram_bank as usize) << 5` is `ram_bank * 32`. -/
def Mbc1.read (m : Mbc1) (addr : Nat) : Nat :=
  if addr ≤ 0x3FFF then
    let physical :=
      if m.banking_mode = 1 then m.ram_bank * 32 * 0x4000 + addr
      else addr
    (m.rom.get physical).getD 0xFF
  else if addr ≤ 0x7FFF then
    let bank := m.effective_rom_bank
    let physical := bank * 0x4000 + (addr - 0x4000)
    (m.rom.get physical).getD 0xFF
  else if 0xA000 ≤ addr ∧ addr ≤ 0xBFFF then
    if m.ram_enabled = false ∨ m.ram.size = 0 then 0xFF
    else
      let physical := m.effective_ram_bank * 0x2000 + (addr - 0xA000)
      (m.ram.get physical).getD 0xFF
  else 0xFF

/-- Mbc1::write.  `(val & 0x0F) == 0x0A` is `val % 16 = 10`; `val & 0x1F` is
`val % 32`; `val & 0x03` is `val % 4`; `val & 0x01` is `val % 2`. -/
def Mbc1.write (m : Mbc1) (addr val : Nat) : Mbc1 :=
  if addr ≤ 0x1FFF then
    { m with ram_enabled := val % 16 = 10 }
  else if addr ≤ 0x3FFF then
    { m with rom_bank := val % 32 }
  else if addr ≤ 0x5FFF then
    { m with ram_bank := val % 4 }
  else if addr ≤ 0x7FFF then
    { m with banking_mode := val % 2 }
  else if 0xA000 ≤ addr ∧ addr ≤ 0xBFFF then
    if m.ram_enabled = false ∨ m.ram.size = 0 then m
    else
      let physical := m.effective_ram_bank * 0x2000 + (addr - 0xA000)
      if physical < m.ram.size then
        { m with ram := { m.ram with
            data := fun j => if j = physical then val % 256 else m.ram.data j } }
      else m
  else m

/-- Tagged mapper variant behind `Box<dyn Mbc>` (the set is closed: MBC0, MBC1). -/
inductive Mbc where
  | mbc0 : Mbc0 → Mbc
  | mbc1 : Mbc1 → Mbc

structure Cartridge where
  mbc : Mbc
  title : List Nat
  has_battery : Bool

/-- parse_ram_size (src/gb/mbc/mod.rs): unknown codes fall through to 0. -/
def parse_ram_size (code : Nat) : Nat :=
  if code = 0x00 then 0
  else if code = 0x01 then 2 * 1024
  else if code = 0x02 then 8 * 1024
  else if code = 0x03 then 32 * 1024
  else if code = 0x04 then 128 * 1024
  else if code = 0x05 then 64 * 1024
  else 0

def is_battery_backed (cart_type : Nat) : Bool :=
  cart_type = 0x03 ∨ cart_type = 0x06 ∨ cart_type = 0x09 ∨ cart_type = 0x0D ∨
  cart_type = 0x0F ∨ cart_type = 0x10 ∨ cart_type = 0x13 ∨ cart_type = 0x1B ∨
  cart_type = 0x1E

/-- extract_title: bytes 0x134–0x143 up to the first NUL. -/
def extract_title (rom : Bytes) : List Nat :=
  ((List.range 16).map (fun i => rom.data (0x134 + i))).takeWhile (fun b => b ≠ 0)

/-- Cartridge::new.  `none` models a panic: either an out-of-bounds header
index (the constructor indexes up to `rom[0x149]`) or the
`Unsupported cartridge type` panic for a type byte outside 0x00–0x03. -/
def Cartridge.new (rom : Bytes) : Option Cartridge :=
  if rom.size < 0x14A then none
  else
    let title := extract_title rom
    let cart_type := rom.data 0x147
    let ram_size := parse_ram_size (rom.data 0x149)
    let has_battery := is_battery_backed cart_type
    if cart_type = 0x00 then
      some { mbc := Mbc.mbc0 { rom := rom }, title := title, has_battery := has_battery }
    else if 0x01 ≤ cart_type ∧ cart_type ≤ 0x03 then
      some { mbc := Mbc.mbc1 (Mbc1.new rom ram_size has_battery), title := title,
             has_battery := has_battery }
    else none

def Cartridge.read (c : Cartridge) (addr : Nat) : Nat :=
  match c.mbc with
  | Mbc.mbc0 m => m.read addr
  | Mbc.mbc1 m => m.read addr

def Cartridge.write (c : Cartridge) (addr val : Nat) : Cartridge :=
  match c.mbc with
  | Mbc.mbc0 m => c
  | Mbc.mbc1 m => { c with mbc := Mbc.mbc1 (m.write addr val) }

/-! ## Interconnect (src/gb/interconnect.rs) -/

/-- Sets a power-of-two bit: `x | bit` for `bit` a single bit. -/
def orBit (x bit : Nat) : Nat :=
  if x / bit % 2 = 1 then x else x + bit

structure Interconnect where
  cartridge : Cartridge
  ppu : Ppu
  timer : Timer
  joypad : Joypad
  vram : Nat → Nat
  wram : Nat → Nat
  oam : Nat → Nat
  io_registers : Nat → Nat
  hram : Nat → Nat
  ie_register : Nat
  if_register : Nat

/-- Interconnect::new; `none` when Cartridge::new panics. -/
def Interconnect.new (cart : Bytes) : Option Interconnect :=
  (Cartridge.new cart).map (fun c =>
    { cartridge := c, ppu := Ppu.new, timer := Timer.new, joypad := Joypad.new,
      vram := fun _ => 0, wram := fun _ => 0, oam := fun _ => 0,
      io_registers := fun _ => 0xFF, hram := fun _ => 0,
      ie_register := 0, if_register := 0xE0 })

/-- Interconnect::pending_interrupts: `IF & IE & 0x1F`. -/
def Interconnect.pending_interrupts (s : Interconnect) : Nat :=
  (s.if_register &&& s.ie_register) % 32

/-- Interconnect::clear_interrupt: `IF &= !interrupt`; for a single-bit mask
this subtracts the bit when it is set. -/
def Interconnect.clear_interrupt (s : Interconnect) (interrupt : Nat) : Interconnect :=
  { s with if_register :=
      s.if_register - s.if_register / interrupt % 2 * interrupt }

/-- Interconnect::request_interrupt: `IF |= interrupt` (single-bit masks). -/
def Interconnect.request_interrupt (s : Interconnect) (interrupt : Nat) : Interconnect :=
  { s with if_register := orBit s.if_register interrupt }

/-- Interconnect::step ("tick"): PPU first, then timer, then latch the timer
and VBlank interrupt bits (`|= 0x04`, `|= 0x01`). -/
def Interconnect.step (s : Interconnect) (cycles : Nat) : Interconnect :=
  let pr := s.ppu.step cycles
  let t := s.timer.step cycles
  let s := { s with ppu := pr.1, timer := t }
  let s :=
    if t.interrupt_requested = true then
      { s with if_register := orBit s.if_register 4,
               timer := t.clear_interrupt }
    else s
  if pr.2 = true then { s with if_register := orBit s.if_register 1 } else s

/-- Interconnect::read.  The arms appear in source order; `IF | 0xE0` sets the
three (clear) top bits of the `u8`, so it is `if_register % 32 + 0xE0`. -/
def Interconnect.read (s : Interconnect) (address : Nat) : Nat :=
  if address ≤ 0x7FFF then s.cartridge.read address
  else if address ≤ 0x9FFF then s.vram (address - 0x8000)
  else if address ≤ 0xBFFF then s.cartridge.read address
  else if address ≤ 0xDFFF then s.wram (address - 0xC000)
  else if address ≤ 0xFDFF then s.wram (address - 0xE000)
  else if address ≤ 0xFE9F then s.oam (address - 0xFE00)
  else if address ≤ 0xFEFF then 0xFF
  else if address = 0xFF00 then s.joypad.read
  else if 0xFF04 ≤ address ∧ address ≤ 0xFF07 then s.timer.read address
  else if address = 0xFF0F then s.if_register % 32 + 0xE0
  else if address = 0xFF46 then 0xFF
  else if (0xFF40 ≤ address ∧ address ≤ 0xFF45) ∨ (0xFF47 ≤ address ∧ address ≤ 0xFF4B) then
    s.ppu.read address
  else if (0xFF01 ≤ address ∧ address ≤ 0xFF03) ∨ (0xFF08 ≤ address ∧ address ≤ 0xFF0E) ∨
          (0xFF10 ≤ address ∧ address ≤ 0xFF3F) ∨ (0xFF4C ≤ address ∧ address ≤ 0xFF7F) then
    s.io_registers (address - 0xFF00)
  else if 0xFF80 ≤ address ∧ address ≤ 0xFFFE then s.hram (address - 0xFF80)
  else s.ie_register

/-- Interconnect::read_16bits: little-endian pair; `(hi << 8) | lo` with
`lo < 256` is `hi * 256 + lo`. -/
def Interconnect.read_16bits (s : Interconnect) (address : Nat) : Nat :=
  let lo := s.read address
  let hi := s.read ((address + 1) % 65536)
  hi * 256 + lo

/-- The `for i in 0..160` loop of Interconnect::oam_dma, iterating `i` upward;
each pass reads through the full bus view of the partially-updated state. -/
def Interconnect.oam_dma_loop (source : Nat) : Nat → Interconnect → Interconnect
  | 0, s => s
  | n + 1, s =>
    let i := 160 - (n + 1)
    let byte := s.read (source + i)
    Interconnect.oam_dma_loop source n
      { s with oam := fun j => if j = i then byte else s.oam j }

/-- Interconnect::oam_dma: copy 160 bytes from `data << 8`. -/
def Interconnect.oam_dma (s : Interconnect) (data : Nat) : Interconnect :=
  Interconnect.oam_dma_loop (data % 256 * 256) 160 s

/-- Interconnect::write, arms in source order.  The IF arm `data | 0xE0` is
`data % 32 + 0xE0` for the `u8` argument. -/
def Interconnect.write (s : Interconnect) (address data : Nat) : Interconnect :=
  let data := data % 256
  if address ≤ 0x7FFF then { s with cartridge := s.cartridge.write address data }
  else if address ≤ 0x9FFF then
    { s with vram := fun j => if j = address - 0x8000 then data else s.vram j }
  else if address ≤ 0xBFFF then { s with cartridge := s.cartridge.write address data }
  else if address ≤ 0xDFFF then
    { s with wram := fun j => if j = address - 0xC000 then data else s.wram j }
  else if address ≤ 0xFDFF then
    { s with wram := fun j => if j = address - 0xE000 then data else s.wram j }
  else if address ≤ 0xFE9F then
    { s with oam := fun j => if j = address - 0xFE00 then data else s.oam j }
  else if address ≤ 0xFEFF then s
  else if address = 0xFF00 then { s with joypad := s.joypad.write data }
  else if 0xFF04 ≤ address ∧ address ≤ 0xFF07 then
    { s with timer := s.timer.write address data }
  else if address = 0xFF0F then { s with if_register := data % 32 + 0xE0 }
  else if address = 0xFF46 then s.oam_dma data
  else if (0xFF40 ≤ address ∧ address ≤ 0xFF45) ∨ (0xFF47 ≤ address ∧ address ≤ 0xFF4B) then
    { s with ppu := s.ppu.write address data }
  else if (0xFF01 ≤ address ∧ address ≤ 0xFF03) ∨ (0xFF08 ≤ address ∧ address ≤ 0xFF0E) ∨
          (0xFF10 ≤ address ∧ address ≤ 0xFF3F) ∨ (0xFF4C ≤ address ∧ address ≤ 0xFF7F) then
    { s with io_registers := fun j => if j = address - 0xFF00 then data else s.io_registers j }
  else if 0xFF80 ≤ address ∧ address ≤ 0xFFFE then
    { s with hram := fun j => if j = address - 0xFF80 then data else s.hram j }
  else { s with ie_register := data }

/-- Interconnect::write_16bits: low byte first. -/
def Interconnect.write_16bits (s : Interconnect) (address value : Nat) : Interconnect :=
  let s := s.write address (value % 256)
  s.write ((address + 1) % 65536) (value / 256 % 256)

/-! ## CPU (src/gb/cpu/mod.rs, src/gb/cpu/operands.rs, src/gb/cpu/alu.rs) -/

structure Flags where
  z : Bool
  n : Bool
  h : Bool
  c : Bool

structure Cpu where
  reg_pc : Nat
  reg_sp : Nat
  regs_af : Register
  regs_bc : Register
  regs_de : Register
  regs_hl : Register
  flags : Flags
  ime : Bool
  ime_pending : Bool
  halted : Bool

/-- Cpu::new: initial state on cartridge entry (register pairs built with the
byte-swapping `Register::new` above). -/
def Cpu.new : Cpu :=
  { reg_pc := 0x0100, reg_sp := 0xFFFE,
    regs_af := Register.new 0x01B0, regs_bc := Register.new 0x0013,
    regs_de := Register.new 0x00D8, regs_hl := Register.new 0x014D,
    flags := { z := true, n := false, h := true, c := true },
    ime := false, ime_pending := false, halted := false }

def Cpu.pc (cpu : Cpu) : Nat := cpu.reg_pc
def Cpu.sp (cpu : Cpu) : Nat := cpu.reg_sp
def Cpu.af (cpu : Cpu) : Nat := cpu.regs_af.get
def Cpu.bc (cpu : Cpu) : Nat := cpu.regs_bc.get
def Cpu.de (cpu : Cpu) : Nat := cpu.regs_de.get
def Cpu.hl (cpu : Cpu) : Nat := cpu.regs_hl.get
def Cpu.is_halted (cpu : Cpu) : Bool := cpu.halted

def Cpu.get_reg_a (cpu : Cpu) : Nat := cpu.regs_af.get_hi
def Cpu.get_reg_b (cpu : Cpu) : Nat := cpu.regs_bc.get_hi
def Cpu.get_reg_c (cpu : Cpu) : Nat := cpu.regs_bc.get_lo
def Cpu.get_reg_d (cpu : Cpu) : Nat := cpu.regs_de.get_hi
def Cpu.get_reg_h (cpu : Cpu) : Nat := cpu.regs_hl.get_hi

def Cpu.set_reg_a (cpu : Cpu) (num : Nat) : Cpu := { cpu with regs_af := cpu.regs_af.set_hi num }
def Cpu.set_reg_c (cpu : Cpu) (num : Nat) : Cpu := { cpu with regs_bc := cpu.regs_bc.set_lo num }
def Cpu.set_reg_h (cpu : Cpu) (num : Nat) : Cpu := { cpu with regs_hl := cpu.regs_hl.set_hi num }

/-- 16-bit register identifiers (src/gb/cpu/operands.rs). -/
inductive Reg16 where
  | BC | DE | HL | SP

/-- Reg16::from_bits: `bits & 0x03` selects the pair. -/
def Reg16.from_bits (bits : Nat) : Reg16 :=
  match bits % 4 with
  | 0 => Reg16.BC
  | 1 => Reg16.DE
  | 2 => Reg16.HL
  | _ => Reg16.SP

/-- 16-bit register identifiers for PUSH/POP (AF instead of SP). -/
inductive Reg16Stack where
  | BC | DE | HL | AF

def Reg16Stack.from_bits (bits : Nat) : Reg16Stack :=
  match bits % 4 with
  | 0 => Reg16Stack.BC
  | 1 => Reg16Stack.DE
  | 2 => Reg16Stack.HL
  | _ => Reg16Stack.AF

def Cpu.read_r16 (cpu : Cpu) (r : Reg16) : Nat :=
  match r with
  | Reg16.BC => cpu.regs_bc.get
  | Reg16.DE => cpu.regs_de.get
  | Reg16.HL => cpu.regs_hl.get
  | Reg16.SP => cpu.reg_sp

def Cpu.write_r16 (cpu : Cpu) (r : Reg16) (val : Nat) : Cpu :=
  match r with
  | Reg16.BC => { cpu with regs_bc := cpu.regs_bc.set val }
  | Reg16.DE => { cpu with regs_de := cpu.regs_de.set val }
  | Reg16.HL => { cpu with regs_hl := cpu.regs_hl.set val }
  | Reg16.SP => { cpu with reg_sp := val % 65536 }

/-- Cpu::read_r16_stack.  The AF arm assembles
`((z as u8)<<7)|((n as u8)<<6)|((h as u8)<<5)|((c as u8)<<4)` — disjoint bits,
hence a sum — below `A << 8`. -/
def Cpu.read_r16_stack (cpu : Cpu) (r : Reg16Stack) : Nat :=
  match r with
  | Reg16Stack.BC => cpu.regs_bc.get
  | Reg16Stack.DE => cpu.regs_de.get
  | Reg16Stack.HL => cpu.regs_hl.get
  | Reg16Stack.AF =>
    let f := (if cpu.flags.z then 128 else 0) + (if cpu.flags.n then 64 else 0) +
             (if cpu.flags.h then 32 else 0) + (if cpu.flags.c then 16 else 0)
    cpu.get_reg_a * 256 + f

/-- Cpu::write_r16_stack.  The AF arm stores `val & 0xFFF0`
(= `val % 65536 / 16 * 16`) and decodes the four flag bits of `val as u8`. -/
def Cpu.write_r16_stack (cpu : Cpu) (r : Reg16Stack) (val : Nat) : Cpu :=
  match r with
  | Reg16Stack.BC => { cpu with regs_bc := cpu.regs_bc.set val }
  | Reg16Stack.DE => { cpu with regs_de := cpu.regs_de.set val }
  | Reg16Stack.HL => { cpu with regs_hl := cpu.regs_hl.set val }
  | Reg16Stack.AF =>
    let f := val % 256
    { cpu with regs_af := cpu.regs_af.set (val % 65536 / 16 * 16),
               flags := { z := f / 128 % 2 = 1, n := f / 64 % 2 = 1,
                          h := f / 32 % 2 = 1, c := f / 16 % 2 = 1 } }

/-- Cpu::push_16: decrement SP (wrapping), write high byte, decrement, write
low byte. -/
def Cpu.push_16 (cpu : Cpu) (inter : Interconnect) (value : Nat) : Cpu × Interconnect :=
  let sp1 := (cpu.reg_sp + 0xFFFF) % 0x10000
  let inter := inter.write sp1 (value / 256 % 256)
  let sp2 := (sp1 + 0xFFFF) % 0x10000
  let inter := inter.write sp2 (value % 256)
  ({ cpu with reg_sp := sp2 }, inter)

/-- Cpu::pop_16: read low byte, increment SP, read high byte, increment;
`(hi << 8) | lo` with `lo < 256` is `hi * 256 + lo`. -/
def Cpu.pop_16 (cpu : Cpu) (inter : Interconnect) : Cpu × Nat :=
  let lo := inter.read cpu.reg_sp
  let sp1 := (cpu.reg_sp + 1) % 0x10000
  let hi := inter.read sp1
  let sp2 := (sp1 + 1) % 0x10000
  ({ cpu with reg_sp := sp2 }, hi * 256 + lo)

/-- Cpu::read_imm8: fetch the byte at PC and advance PC (wrapping). -/
def Cpu.read_imm8 (cpu : Cpu) (inter : Interconnect) : Cpu × Nat :=
  let val := inter.read cpu.reg_pc
  ({ cpu with reg_pc := (cpu.reg_pc + 1) % 0x10000 }, val)

/-- Cpu::read_imm16: little-endian immediate, PC advances twice. -/
def Cpu.read_imm16 (cpu : Cpu) (inter : Interconnect) : Cpu × Nat :=
  let lo := inter.read cpu.reg_pc
  let cpu := { cpu with reg_pc := (cpu.reg_pc + 1) % 0x10000 }
  let hi := inter.read cpu.reg_pc
  let cpu := { cpu with reg_pc := (cpu.reg_pc + 1) % 0x10000 }
  (cpu, hi * 256 + lo)

/-- Cpu::handle_interrupts: commit a pending EI, wake from HALT on any pending
interrupt, then dispatch the lowest-numbered pending bit when IME is set.
The single-bit tests `pending & 0x01` … `pending & 0x08` are the successive
binary digits of `pending`. -/
def Cpu.handle_interrupts (cpu : Cpu) (inter : Interconnect) : Cpu × Interconnect × Nat :=
  let cpu := if cpu.ime_pending = true then { cpu with ime_pending := false, ime := true } else cpu
  let pending := inter.pending_interrupts
  let cpu := if cpu.halted = true ∧ pending ≠ 0 then { cpu with halted := false } else cpu
  if cpu.ime = false ∨ pending = 0 then
    (cpu, inter, 0)
  else
    let bv : Nat × Nat :=
      if pending % 2 = 1 then (0x01, 0x0040)
      else if pending / 2 % 2 = 1 then (0x02, 0x0048)
      else if pending / 4 % 2 = 1 then (0x04, 0x0050)
      else if pending / 8 % 2 = 1 then (0x08, 0x0058)
      else (0x10, 0x0060)
    let cpu := { cpu with ime := false }
    let inter := inter.clear_interrupt bv.1
    let pr := cpu.push_16 inter cpu.reg_pc
    ({ pr.1 with reg_pc := bv.2 }, pr.2, 20)

/-! ### Opcode decoding (src/gb/opcode.rs) and the execute fragment

The `Opcode` enum in src/gb/opcode.rs lists only the variants below Halt;
`from_u8` yields `none` (→ the `Unrecognized Opcode` panic) for every other
byte.  The dispatch in src/gb/cpu/mod.rs additionally matches `Opcode::Halt`,
`Opcode::Ei` and `Opcode::Di`, whose enum entries are not in the source tree.
Modelled from the spec: the byte values Halt = 0x76, Di = 0xF3, Ei = 0xFB of
those missing variants follow the spec's standard columnar decode. -/
inductive Opcode where
  | Nop | Ld_Bc_d16 | Dec_Bc | Dec_H | Cpl | Ld_C_B | Ld_C_C | Ld_C_D | Jp_a16
  | Halt | Di | Ei

def Opcode.from_u8 (n : Nat) : Option Opcode :=
  if n = 0x00 then some Opcode.Nop
  else if n = 0x01 then some Opcode.Ld_Bc_d16
  else if n = 0x0B then some Opcode.Dec_Bc
  else if n = 0x25 then some Opcode.Dec_H
  else if n = 0x2F then some Opcode.Cpl
  else if n = 0x48 then some Opcode.Ld_C_B
  else if n = 0x49 then some Opcode.Ld_C_C
  else if n = 0x4A then some Opcode.Ld_C_D
  else if n = 0xC3 then some Opcode.Jp_a16
  else if n = 0x76 then some Opcode.Halt
  else if n = 0xF3 then some Opcode.Di
  else if n = 0xFB then some Opcode.Ei
  else none

/-- Cpu::alu_dec (src/gb/cpu/alu.rs): 8-bit DEC with wrap; sets Z, N=1, H;
`(val & 0x0F) == 0` is `val % 16 = 0`. -/
def Cpu.alu_dec (cpu : Cpu) (val : Nat) : Cpu × Nat :=
  let result := (val + 255) % 256
  ({ cpu with flags := { cpu.flags with z := result = 0, n := true, h := val % 16 = 0 } },
   result)

/-- Cpu::execute_opcode for the decodable fragment; `none` models the panic on
an unrecognized opcode byte.  Returns (cpu, bus, T-cycles). -/
def Cpu.execute_opcode (cpu : Cpu) (inter : Interconnect) (opcode : Nat) :
    Option (Cpu × Interconnect × Nat) :=
  match Opcode.from_u8 opcode with
  | none => none
  | some op =>
    match op with
    | Opcode.Nop => some (cpu, inter, 4)
    | Opcode.Ld_Bc_d16 =>
      let reg := Reg16.from_bits (opcode / 16 % 4)
      let r := cpu.read_imm16 inter
      some (r.1.write_r16 reg r.2, inter, 12)
    | Opcode.Dec_Bc =>
      let reg := Reg16.from_bits (opcode / 16 % 4)
      let val := (cpu.read_r16 reg + 0xFFFF) % 0x10000
      some (cpu.write_r16 reg val, inter, 8)
    | Opcode.Dec_H =>
      let r := cpu.alu_dec cpu.get_reg_h
      some (r.1.set_reg_h r.2, inter, 4)
    | Opcode.Cpl =>
      let cpu := cpu.set_reg_a (255 - cpu.get_reg_a % 256)
      some ({ cpu with flags := { cpu.flags with n := true, h := true } }, inter, 4)
    | Opcode.Ld_C_B => some (cpu.set_reg_c cpu.get_reg_b, inter, 4)
    | Opcode.Ld_C_C => some (cpu, inter, 4)
    | Opcode.Ld_C_D => some (cpu.set_reg_c cpu.get_reg_d, inter, 4)
    | Opcode.Jp_a16 =>
      let r := cpu.read_imm16 inter
      some ({ r.1 with reg_pc := r.2 }, inter, 16)
    | Opcode.Halt => some ({ cpu with halted := true }, inter, 4)
    | Opcode.Di => some ({ cpu with ime := false, ime_pending := false }, inter, 4)
    | Opcode.Ei => some ({ cpu with ime_pending := true }, inter, 4)

/-- Cpu::execute_next_opcode: fetch at PC (unconditionally — there is no
`halted` check), advance PC with wrap, execute. -/
def Cpu.execute_next_opcode (cpu : Cpu) (inter : Interconnect) :
    Option (Cpu × Interconnect × Nat) :=
  let op := inter.read cpu.reg_pc
  let cpu := { cpu with reg_pc := (cpu.reg_pc + 1) % 0x10000 }
  cpu.execute_opcode inter op

/-! ## Concrete fixtures used by witnesses and counterexamples -/

/-- An all-zero 32 KiB ROM image. -/
def romZero : Bytes := { size := 0x8000, data := fun _ => 0 }

/-- MBC0 cartridge over the zero ROM. -/
def cartZero : Cartridge :=
  { mbc := Mbc.mbc0 { rom := romZero }, title := [], has_battery := false }

/-- Bus state matching Interconnect::new over the zero ROM. -/
def interBase : Interconnect :=
  { cartridge := cartZero, ppu := Ppu.new, timer := Timer.new, joypad := Joypad.new,
    vram := fun _ => 0, wram := fun _ => 0, oam := fun _ => 0,
    io_registers := fun _ => 0xFF, hram := fun _ => 0,
    ie_register := 0, if_register := 0xE0 }

/-! ## C1 — initial CPU state -/

/-- C1: Cpu::new does NOT yield the documented readable register pairs.
`Register::new` stores the low byte in `hi` and the high byte in `lo`
(swapped relative to `Register::set`), so the readable pairs come out
byte-swapped: AF = 0xB001 (not 0x01B0), BC = 0x1300, DE = 0xD800,
HL = 0x4D01.  PC, SP, IME and halted are as documented. -/
theorem C1_initial_state_swapped :
    Cpu.new.af = 0xB001 ∧ Cpu.new.af ≠ 0x01B0 ∧
    Cpu.new.bc = 0x1300 ∧ Cpu.new.bc ≠ 0x0013 ∧
    Cpu.new.de = 0xD800 ∧ Cpu.new.de ≠ 0x00D8 ∧
    Cpu.new.hl = 0x4D01 ∧ Cpu.new.hl ≠ 0x014D ∧
    Cpu.new.pc = 0x0100 ∧ Cpu.new.sp = 0xFFFE ∧
    Cpu.new.ime = false ∧ Cpu.new.is_halted = false := by
  decide

/-! ## C2 — HALT behaviour -/

/-- WRAM contents for the HALT scenario: a HALT opcode at 0xC000 followed by
`LD BC, 0x1234` (bytes 0x01 0x34 0x12) at 0xC001. -/
def interHalt : Interconnect :=
  { interBase with wram := fun i =>
      if i = 0 then 0x76 else if i = 1 then 0x01 else if i = 2 then 0x34
      else if i = 3 then 0x12 else 0 }

/-- CPU about to execute the HALT at 0xC000. -/
def cpuAtHalt : Cpu := { Cpu.new with reg_pc := 0xC000, reg_sp := 0xD000 }

/-- The same CPU after HALT retires: halted, PC past the HALT byte. -/
def cpuHalted : Cpu := { cpuAtHalt with reg_pc := 0xC001, halted := true }

/-- C2: executing HALT does set `halted` (4 cycles), but a halted CPU still
fetches and executes: stepping `cpuHalted` runs the `LD BC,d16` under PC,
consuming 12 cycles (not 4) and moving PC to 0xC004. -/
theorem C2_halted_cpu_still_fetches :
    Cpu.execute_next_opcode cpuAtHalt interHalt = some (cpuHalted, interHalt, 4) ∧
    cpuHalted.halted = true ∧
    (Cpu.execute_next_opcode cpuHalted interHalt).map (fun r => (r.1.reg_pc, r.1.bc, r.2.2)) =
      some (0xC004, 0x1234, 12) := by
  refine ⟨rfl, rfl, ?_⟩
  decide

/-! ## C3 — loader validation of header bytes -/

/-- ROM whose ROM-size byte (0xAA) and RAM-size byte (0x07) are unrecognized,
with a recognized cartridge type 0x01. -/
def romBadSizes : Bytes :=
  { size := 0x8000, data := fun i =>
      if i = 0x147 then 0x01 else if i = 0x148 then 0xAA
      else if i = 0x149 then 0x07 else 0 }

/-- ROM with an unrecognized cartridge-type byte 0xC0. -/
def romBadType : Bytes :=
  { size := 0x8000, data := fun i => if i = 0x147 then 0xC0 else 0 }

/-- C3 counterexample: cartridge construction SUCCEEDS on a ROM whose
ROM-size byte and RAM-size byte are both unrecognized — the loader never
inspects byte 0x148 and silently maps the unknown RAM-size code to 0. -/
theorem C3_counterexample_unknown_sizes_accepted :
    romBadSizes.data 0x148 = 0xAA ∧ romBadSizes.data 0x149 = 0x07 ∧
    parse_ram_size 0x07 = 0 ∧
    (Cartridge.new romBadSizes).isSome = true := by
  decide

/-- C3 (amended): only an unrecognized cartridge-type byte (0x147) makes
construction fail; the ROM-size byte is never validated, and an unrecognized
RAM-size byte silently yields RAM size 0. -/
theorem C3_amended_only_cart_type_checked (rom : Bytes) (hsize : 0x14A ≤ rom.size) :
    ((Cartridge.new rom = none) ↔
      ¬(rom.data 0x147 = 0x00 ∨ (0x01 ≤ rom.data 0x147 ∧ rom.data 0x147 ≤ 0x03))) ∧
    (∀ code, 6 ≤ code → parse_ram_size code = 0) := by
  constructor
  · unfold Cartridge.new
    rw [if_neg (by omega)]
    by_cases h0 : rom.data 0x147 = 0x00
    · simp [h0]
    · rw [if_neg h0]
      by_cases h13 : 0x01 ≤ rom.data 0x147 ∧ rom.data 0x147 ≤ 0x03
      · rw [if_pos h13]
        simp [h0, h13]
      · rw [if_neg h13]
        simp [h0, h13]
  · intro code h6
    unfold parse_ram_size
    rw [if_neg (by omega), if_neg (by omega), if_neg (by omega), if_neg (by omega),
        if_neg (by omega), if_neg (by omega)]

/-- C3 witness: the amended theorem applied to a concrete ROM with an
unrecognized cartridge-type byte. -/
theorem C3_amended_witness :
    0x14A ≤ romBadType.size ∧
    (((Cartridge.new romBadType = none) ↔
        ¬(romBadType.data 0x147 = 0x00 ∨
          (0x01 ≤ romBadType.data 0x147 ∧ romBadType.data 0x147 ≤ 0x03))) ∧
      (∀ code, 6 ≤ code → parse_ram_size code = 0)) :=
  ⟨by decide, C3_amended_only_cart_type_checked romBadType (by decide)⟩

/-! ## C4 — MBC1 0→1 bank quirk -/

/-- Apply a sequence of MBC1 register writes (models any reachable state). -/
def Mbc1.run_writes (m : Mbc1) (ws : List (Nat × Nat)) : Mbc1 :=
  ws.foldl (fun acc w => acc.write w.1 w.2) m

/-- 32 KiB ROM whose byte at offset 0x4000 is 0x11. -/
def romBank : Bytes :=
  { size := 0x8000, data := fun i => if i = 0x4000 then 0x11 else 0 }

/-- A reachable MBC1 state: from Mbc1::new after writing 1 to 0x4000
(RAM-bank register := 1, still in ROM banking mode). -/
def mbc1Reached : Mbc1 := (Mbc1.new romBank 0 false).run_writes [(0x4000, 1)]

/-- C4 counterexample: in ROM mode with ram_bank = 1, writing W = 0
(W & 0x1F = 0) to 0x2000–0x3FFF makes read(0x4000) hit bank
(1 << 5) | 1 = 0x21 (offset 0x84000, out of range ⇒ 0xFF), not the ROM byte
at offset 0x4000 (0x11). -/
theorem C4_counterexample_rom_mode_upper_bits :
    mbc1Reached.ram_bank = 1 ∧ mbc1Reached.banking_mode = 0 ∧
    (0 : Nat) % 32 = 0 ∧
    (mbc1Reached.write 0x2000 0).read 0x4000 = 0xFF ∧
    (romBank.get 0x4000).getD 0xFF = 0x11 := by
  decide

/-- C4 (amended): the 0→1 quirk as stated holds for MBC1 states whose RAM-bank
register is 0 or which are in RAM banking mode; writing any W with
W & 0x1F = 0 to 0x2000–0x3FFF then reading 0x4000 returns the ROM byte at
offset 0x4000.  (In ROM mode with a nonzero RAM-bank register the read comes
from bank (ram_bank << 5) | 1 instead.) -/
theorem C4_amended_quirk (m : Mbc1) (addr W : Nat)
    (h1 : 0x2000 ≤ addr) (h2 : addr ≤ 0x3FFF) (hW : W % 32 = 0)
    (hq : m.ram_bank = 0 ∨ m.banking_mode = 1) :
    (m.write addr W).read 0x4000 = (m.rom.get 0x4000).getD 0xFF := by
  have hwr : m.write addr W = { m with rom_bank := W % 32 } := by
    unfold Mbc1.write
    rw [if_neg (by omega), if_pos (by omega)]
  rw [hwr]
  have hbank : Mbc1.effective_rom_bank { m with rom_bank := W % 32 } = 1 := by
    rcases hq with h0 | h1
    · simp [Mbc1.effective_rom_bank, h0]
      split_ifs <;> omega
    · simp [Mbc1.effective_rom_bank, h1]
      split_ifs <;> omega
  unfold Mbc1.read
  rw [if_neg (by omega), if_pos (by omega), hbank]

/-- C4 witness: the amended theorem at a concrete in-range state. -/
theorem C4_amended_quirk_witness :
    0x2000 ≤ 0x2100 ∧ 0x2100 ≤ 0x3FFF ∧ (0x20 : Nat) % 32 = 0 ∧
    ((Mbc1.new romBank 0 false).ram_bank = 0 ∨ (Mbc1.new romBank 0 false).banking_mode = 1) ∧
    ((Mbc1.new romBank 0 false).write 0x2100 0x20).read 0x4000 =
      ((Mbc1.new romBank 0 false).rom.get 0x4000).getD 0xFF :=
  ⟨by decide, by decide, by decide, by decide,
    C4_amended_quirk (Mbc1.new romBank 0 false) 0x2100 0x20
      (by decide) (by decide) (by decide) (Or.inl (by decide))⟩

/-! ## Bus access helper lemmas -/

/-- A write to a WRAM address only updates the WRAM byte store. -/
theorem Interconnect.write_wram (s : Interconnect) (addr d : Nat)
    (h1 : 0xC000 ≤ addr) (h2 : addr ≤ 0xDFFF) :
    s.write addr d =
      { s with wram := fun j => if j = addr - 0xC000 then d % 256 else s.wram j } := by
  unfold Interconnect.write
  rw [if_neg (by omega), if_neg (by omega), if_neg (by omega), if_pos (by omega)]

/-- A read from a WRAM address returns the stored WRAM byte. -/
theorem Interconnect.read_wram (s : Interconnect) (addr : Nat)
    (h1 : 0xC000 ≤ addr) (h2 : addr ≤ 0xDFFF) :
    s.read addr = s.wram (addr - 0xC000) := by
  unfold Interconnect.read
  rw [if_neg (by omega), if_neg (by omega), if_neg (by omega), if_pos (by omega)]

/-! ## C9 — PUSH/POP round trip -/

/-- C9: for any SP and 16-bit value whose two stack bytes land in WRAM,
POP after PUSH returns the pushed value and restores SP; and writing a popped
value into AF (POP AF) masks its low nibble, so reading AF back gives
`value / 16 * 16`. -/
theorem C9_push_pop_roundtrip (cpu : Cpu) (inter : Interconnect) (value : Nat)
    (hval : value < 0x10000) (hsp : cpu.reg_sp < 0x10000)
    (h1 : 0xC000 ≤ (cpu.reg_sp + 0xFFFE) % 0x10000)
    (h2 : (cpu.reg_sp + 0xFFFE) % 0x10000 ≤ 0xDFFE) :
    ((cpu.push_16 inter value).1.pop_16 (cpu.push_16 inter value).2).2 = value ∧
    ((cpu.push_16 inter value).1.pop_16 (cpu.push_16 inter value).2).1.reg_sp = cpu.reg_sp ∧
    (∀ c : Cpu,
      (c.write_r16_stack Reg16Stack.AF value).read_r16_stack Reg16Stack.AF =
        value / 16 * 16) := by
  have e2 : ((cpu.reg_sp + 0xFFFF) % 0x10000 + 0xFFFF) % 0x10000 =
      (cpu.reg_sp + 0xFFFE) % 0x10000 := by omega
  have e1 : (cpu.reg_sp + 0xFFFF) % 0x10000 = (cpu.reg_sp + 0xFFFE) % 0x10000 + 1 := by
    omega
  have hpush : cpu.push_16 inter value =
      ({ cpu with reg_sp := (cpu.reg_sp + 0xFFFE) % 0x10000 },
        { inter with wram := fun j =>
            if j = (cpu.reg_sp + 0xFFFE) % 0x10000 - 0xC000 then value % 256 % 256
            else if j = (cpu.reg_sp + 0xFFFF) % 0x10000 - 0xC000 then value / 256 % 256 % 256
            else inter.wram j }) := by
    simp only [Cpu.push_16]
    rw [Interconnect.write_wram _ _ _ (by omega) (by omega), e2,
        Interconnect.write_wram _ _ _ (by omega) (by omega)]
  refine ⟨?_, ?_, ?_⟩
  · rw [hpush]
    simp only [Cpu.pop_16]
    rw [Interconnect.read_wram _ _ (by omega) (by omega)]
    rw [show ((cpu.reg_sp + 0xFFFE) % 0x10000 + 1) % 0x10000 =
        (cpu.reg_sp + 0xFFFF) % 0x10000 from by omega]
    rw [Interconnect.read_wram _ _ (by omega) (by omega)]
    dsimp only
    split_ifs <;> omega
  · rw [hpush]
    simp only [Cpu.pop_16]
    omega
  · intro c
    simp only [Cpu.write_r16_stack, Cpu.read_r16_stack, Cpu.get_reg_a, Register.set,
      Register.get_hi, decide_eq_true_eq]
    split_ifs <;> omega

/-- CPU with SP = 0xD000, so both stack bytes land in WRAM. -/
def cpuC9w : Cpu := { Cpu.new with reg_sp := 0xD000 }

/-- C9 witness: the round trip at SP = 0xD000 with value 0x1234. -/
theorem C9_push_pop_roundtrip_witness :
    (0x1234 : Nat) < 0x10000 ∧ cpuC9w.reg_sp < 0x10000 ∧
    0xC000 ≤ (cpuC9w.reg_sp + 0xFFFE) % 0x10000 ∧
    (cpuC9w.reg_sp + 0xFFFE) % 0x10000 ≤ 0xDFFE ∧
    (((cpuC9w.push_16 interBase 0x1234).1.pop_16 (cpuC9w.push_16 interBase 0x1234).2).2 =
        0x1234 ∧
      ((cpuC9w.push_16 interBase 0x1234).1.pop_16
        (cpuC9w.push_16 interBase 0x1234).2).1.reg_sp = cpuC9w.reg_sp ∧
      (∀ c : Cpu,
        (c.write_r16_stack Reg16Stack.AF 0x1234).read_r16_stack Reg16Stack.AF =
          0x1234 / 16 * 16)) :=
  ⟨by decide, by decide, by decide, by decide,
   C9_push_pop_roundtrip cpuC9w interBase 0x1234 (by decide) (by decide) (by decide)
     (by decide)⟩

/-! ## C10 — OAM DMA frame effect -/

/-- The DMA copy loop touches nothing outside the first 160 OAM bytes. -/
theorem oam_dma_loop_frame (source : Nat) : ∀ (n : Nat) (s : Interconnect),
    (Interconnect.oam_dma_loop source n s).cartridge = s.cartridge ∧
    (Interconnect.oam_dma_loop source n s).ppu = s.ppu ∧
    (Interconnect.oam_dma_loop source n s).timer = s.timer ∧
    (Interconnect.oam_dma_loop source n s).joypad = s.joypad ∧
    (Interconnect.oam_dma_loop source n s).vram = s.vram ∧
    (Interconnect.oam_dma_loop source n s).wram = s.wram ∧
    (Interconnect.oam_dma_loop source n s).io_registers = s.io_registers ∧
    (Interconnect.oam_dma_loop source n s).hram = s.hram ∧
    (Interconnect.oam_dma_loop source n s).ie_register = s.ie_register ∧
    (Interconnect.oam_dma_loop source n s).if_register = s.if_register ∧
    (∀ j, 160 ≤ j → (Interconnect.oam_dma_loop source n s).oam j = s.oam j) := by
  intro n
  induction n with
  | zero =>
    intro s
    exact ⟨rfl, rfl, rfl, rfl, rfl, rfl, rfl, rfl, rfl, rfl, fun _ _ => rfl⟩
  | succ n ih =>
    intro s
    have h := ih { s with oam := fun j =>
      if j = 160 - (n + 1) then s.read (source + (160 - (n + 1))) else s.oam j }
    refine ⟨h.1, h.2.1, h.2.2.1, h.2.2.2.1, h.2.2.2.2.1, h.2.2.2.2.2.1,
      h.2.2.2.2.2.2.1, h.2.2.2.2.2.2.2.1, h.2.2.2.2.2.2.2.2.1,
      h.2.2.2.2.2.2.2.2.2.1, ?_⟩
    intro j hj
    have h2 := h.2.2.2.2.2.2.2.2.2.2 j hj
    have hstep : Interconnect.oam_dma_loop source (n + 1) s =
        Interconnect.oam_dma_loop source n
          { s with oam := fun j =>
              if j = 160 - (n + 1) then s.read (source + (160 - (n + 1))) else s.oam j } := rfl
    rw [hstep, h2]
    dsimp only
    rw [if_neg (by omega)]

/-- C10: writing any value V to 0xFF46 performs the OAM DMA and modifies only
the 160 OAM bytes — the cartridge, PPU, timer, joypad, VRAM, WRAM, the stubbed
I/O block, HRAM, IE and IF are all unchanged, as are OAM indices ≥ 160. -/
theorem C10_dma_modifies_only_oam (s : Interconnect) (V : Nat) :
    (s.write 0xFF46 V).cartridge = s.cartridge ∧
    (s.write 0xFF46 V).ppu = s.ppu ∧
    (s.write 0xFF46 V).timer = s.timer ∧
    (s.write 0xFF46 V).joypad = s.joypad ∧
    (s.write 0xFF46 V).vram = s.vram ∧
    (s.write 0xFF46 V).wram = s.wram ∧
    (s.write 0xFF46 V).io_registers = s.io_registers ∧
    (s.write 0xFF46 V).hram = s.hram ∧
    (s.write 0xFF46 V).ie_register = s.ie_register ∧
    (s.write 0xFF46 V).if_register = s.if_register ∧
    (∀ j, 160 ≤ j → (s.write 0xFF46 V).oam j = s.oam j) := by
  have hw : s.write 0xFF46 V = s.oam_dma (V % 256) := by
    simp only [Interconnect.write]
    norm_num
  rw [hw]
  unfold Interconnect.oam_dma
  exact oam_dma_loop_frame (V % 256 % 256 * 256) 160 s

/-- C10 witness: the DMA frame effect applied at a concrete state/value,
including preservation of an OAM index beyond the 160 copied bytes. -/
theorem C10_dma_modifies_only_oam_witness :
    (interBase.write 0xFF46 0xC0).wram = interBase.wram ∧
    (interBase.write 0xFF46 0xC0).if_register = interBase.if_register ∧
    (160 ≤ 160 ∧ (interBase.write 0xFF46 0xC0).oam 160 = interBase.oam 160) :=
  ⟨(C10_dma_modifies_only_oam interBase 0xC0).2.2.2.2.2.1,
   (C10_dma_modifies_only_oam interBase 0xC0).2.2.2.2.2.2.2.2.2.1,
   le_refl 160,
   (C10_dma_modifies_only_oam interBase 0xC0).2.2.2.2.2.2.2.2.2.2 160 (le_refl 160)⟩

/-! ## C6 — interrupt dispatch -/

/-- With IME set on entry and a nonzero pending view, handle_interrupts takes
the dispatch path; its pre-steps collapse to clearing ime/ime_pending/halted. -/
theorem handle_interrupts_dispatch_eq (cpu : Cpu) (inter : Interconnect)
    (hime : cpu.ime = true) (hp : inter.pending_interrupts ≠ 0) :
    cpu.handle_interrupts inter =
      (let pending := inter.pending_interrupts
       let bv : Nat × Nat :=
         if pending % 2 = 1 then (0x01, 0x0040)
         else if pending / 2 % 2 = 1 then (0x02, 0x0048)
         else if pending / 4 % 2 = 1 then (0x04, 0x0050)
         else if pending / 8 % 2 = 1 then (0x08, 0x0058)
         else (0x10, 0x0060)
       let pr := Cpu.push_16
         { cpu with ime := false, ime_pending := false, halted := false }
         (inter.clear_interrupt bv.1) cpu.reg_pc
       ({ pr.1 with reg_pc := bv.2 }, pr.2, 20)) := by
  simp only [Cpu.handle_interrupts]
  by_cases hb : cpu.ime_pending = true
  · rw [if_pos hb]
    by_cases hh : cpu.halted = true
    · have hcond : ({ cpu with ime_pending := false, ime := true } : Cpu).halted = true ∧
          inter.pending_interrupts ≠ 0 := ⟨hh, hp⟩
      rw [if_pos hcond, if_neg (by simp [hp])]
    · have hhf : cpu.halted = false := by simpa using hh
      have hcond : ¬(({ cpu with ime_pending := false, ime := true } : Cpu).halted = true ∧
          inter.pending_interrupts ≠ 0) := by simp [hhf]
      rw [if_neg hcond, if_neg (by simp [hp]), hhf]
  · have hbf : cpu.ime_pending = false := by simpa using hb
    rw [if_neg hb]
    by_cases hh : cpu.halted = true
    · have hcond : cpu.halted = true ∧ inter.pending_interrupts ≠ 0 := ⟨hh, hp⟩
      rw [if_pos hcond, if_neg (by simp [hime, hp]), hbf]
    · have hhf : cpu.halted = false := by simpa using hh
      have hcond : ¬(cpu.halted = true ∧ inter.pending_interrupts ≠ 0) := by simp [hhf]
      rw [if_neg hcond, if_neg (by simp [hime, hp]), hbf, hhf]

/-- With IME and ime_pending both clear, or nothing pending, handle_interrupts
returns 0 cycles without touching PC, SP or the bus. -/
theorem handle_interrupts_noop_eq (cpu : Cpu) (inter : Interconnect)
    (h : (cpu.ime = false ∧ cpu.ime_pending = false) ∨ inter.pending_interrupts = 0) :
    (cpu.handle_interrupts inter).2.2 = 0 ∧
    (cpu.handle_interrupts inter).1.reg_pc = cpu.reg_pc ∧
    (cpu.handle_interrupts inter).1.reg_sp = cpu.reg_sp ∧
    (cpu.handle_interrupts inter).2.1 = inter := by
  rcases h with ⟨h1, h2⟩ | hz
  · by_cases hh : cpu.halted = true ∧ inter.pending_interrupts ≠ 0
    · simp [Cpu.handle_interrupts, h1, h2, hh]
    · simp [Cpu.handle_interrupts, h1, h2, hh]
  · by_cases hb : cpu.ime_pending = true
    · simp [Cpu.handle_interrupts, hb, hz]
    · simp [Cpu.handle_interrupts, hb, hz]

/-- From bit i of the pending view (IF ∧ IE ∧ 0x1F), bit i of IF itself. -/
theorem pending_bit_if_bit (inter : Interconnect) (i : Nat) (h5 : i < 5)
    (hbit : inter.pending_interrupts / 2 ^ i % 2 = 1) :
    inter.if_register / 2 ^ i % 2 = 1 := by
  have hand : (inter.if_register &&& inter.ie_register) / 2 ^ i % 2 = 1 := by
    unfold Interconnect.pending_interrupts at hbit
    interval_cases i <;> (norm_num at hbit ⊢; omega)
  have t : (inter.if_register &&& inter.ie_register).testBit i = true := by
    rw [Nat.testBit_to_div_mod]
    simp [hand]
  rw [Nat.testBit_and] at t
  have t1 : inter.if_register.testBit i = true := by
    cases h' : inter.if_register.testBit i
    · rw [h'] at t; simp at t
    · rfl
  rw [Nat.testBit_to_div_mod] at t1
  simpa using t1

/-- C6 counterexample state: IME clear but a pending EI commit
(`ime_pending = true`), with VBlank pending (IF bit 0 set, IE bit 0 set). -/
def cpuC6 : Cpu :=
  { Cpu.new with reg_pc := 0x1234, reg_sp := 0xD000, ime := false, ime_pending := true }

def interC6 : Interconnect := { interBase with if_register := 0xE1, ie_register := 0x01 }

/-- C6 counterexample: the claim's no-dispatch half fails — here IME is clear
and yet handle_interrupts consumes 20 cycles and moves PC to 0x40, because the
pending EI commit turns IME on at the top of the same call. -/
theorem C6_counterexample_ime_clear_dispatches :
    cpuC6.ime = false ∧ interC6.pending_interrupts ≠ 0 ∧
    (cpuC6.handle_interrupts interC6).2.2 = 20 ∧
    (cpuC6.handle_interrupts interC6).1.reg_pc = 0x40 := by
  refine ⟨rfl, by decide, ?_, ?_⟩ <;> rfl

/-- C6 (amended): when handle_interrupts runs with IME set and a nonzero
pending view it dispatches the lowest-numbered pending bit i: 20 cycles,
IME cleared, PC set to the vector 0x40 + 8·i, bit i of IF cleared, and PC
pushed onto the stack (two bytes below SP, here landing in WRAM).  When IME
is clear AND no EI commit is pending — or nothing is pending — it consumes 0
cycles and leaves PC, SP and the bus untouched.  (The claim's original
no-dispatch side omitted the ime_pending condition.) -/
theorem C6_amended_dispatch (cpu : Cpu) (inter : Interconnect) :
    (∀ i : Nat, i < 5 → cpu.ime = true →
      inter.pending_interrupts / 2 ^ i % 2 = 1 →
      inter.pending_interrupts % 2 ^ i = 0 →
      cpu.reg_sp < 0x10000 →
      0xC000 ≤ (cpu.reg_sp + 0xFFFE) % 0x10000 →
      (cpu.reg_sp + 0xFFFE) % 0x10000 ≤ 0xDFFE →
      ((cpu.handle_interrupts inter).2.2 = 20 ∧
       (cpu.handle_interrupts inter).1.ime = false ∧
       (cpu.handle_interrupts inter).1.reg_pc = 0x40 + 8 * i ∧
       (cpu.handle_interrupts inter).1.reg_sp = (cpu.reg_sp + 0xFFFE) % 0x10000 ∧
       (cpu.handle_interrupts inter).2.1.if_register / 2 ^ i % 2 = 0 ∧
       (cpu.handle_interrupts inter).2.1.read ((cpu.reg_sp + 0xFFFE) % 0x10000) =
         cpu.reg_pc % 256 ∧
       (cpu.handle_interrupts inter).2.1.read ((cpu.reg_sp + 0xFFFF) % 0x10000) =
         cpu.reg_pc / 256 % 256)) ∧
    (((cpu.ime = false ∧ cpu.ime_pending = false) ∨ inter.pending_interrupts = 0) →
      ((cpu.handle_interrupts inter).2.2 = 0 ∧
       (cpu.handle_interrupts inter).1.reg_pc = cpu.reg_pc ∧
       (cpu.handle_interrupts inter).1.reg_sp = cpu.reg_sp ∧
       (cpu.handle_interrupts inter).2.1 = inter)) := by
  constructor
  · intro i h5 hime hbit hlow hsp hw1 hw2
    have hpne : inter.pending_interrupts ≠ 0 := by
      intro h0
      rw [h0] at hbit
      simp at hbit
    rw [handle_interrupts_dispatch_eq cpu inter hime hpne]
    have hIF := pending_bit_if_bit inter i h5 hbit
    have e2 : ((cpu.reg_sp + 0xFFFF) % 0x10000 + 0xFFFF) % 0x10000 =
        (cpu.reg_sp + 0xFFFE) % 0x10000 := by omega
    interval_cases i
    all_goals (
      simp only [show (2:Nat) ^ 0 = 1 from rfl, show (2:Nat) ^ 1 = 2 from rfl,
        show (2:Nat) ^ 2 = 4 from rfl, show (2:Nat) ^ 3 = 8 from rfl,
        show (2:Nat) ^ 4 = 16 from rfl] at hbit hlow hIF ⊢
      simp only [Cpu.push_16]
      rw [Interconnect.write_wram _ _ _ (by omega) (by omega), e2,
          Interconnect.write_wram _ _ _ (by omega) (by omega),
          Interconnect.read_wram _ _ (by omega) (by omega),
          Interconnect.read_wram _ _ (by omega) (by omega)]
      dsimp only [Interconnect.clear_interrupt]
      repeat' apply And.intro
      all_goals first
        | exact True.intro
        | omega
        | (split_ifs <;> first
            | omega
            | (dsimp only; omega)
            | dsimp only))
  · exact handle_interrupts_noop_eq cpu inter

/-- Concrete dispatch input for the C6 witness: IME set, timer interrupt
(bit 2) pending alone. -/
def cpuC6w : Cpu := { Cpu.new with reg_pc := 0xABCD, reg_sp := 0xD000, ime := true }

def interC6w : Interconnect := { interBase with if_register := 0xE4, ie_register := 0x1F }

/-- C6 witness: the amended theorem applied at bit i = 2 (timer), and to a
no-op state with IME and ime_pending clear. -/
theorem C6_amended_dispatch_witness :
    ((cpuC6w.handle_interrupts interC6w).2.2 = 20 ∧
     (cpuC6w.handle_interrupts interC6w).1.ime = false ∧
     (cpuC6w.handle_interrupts interC6w).1.reg_pc = 0x40 + 8 * 2 ∧
     (cpuC6w.handle_interrupts interC6w).1.reg_sp = (cpuC6w.reg_sp + 0xFFFE) % 0x10000 ∧
     (cpuC6w.handle_interrupts interC6w).2.1.if_register / 2 ^ 2 % 2 = 0 ∧
     (cpuC6w.handle_interrupts interC6w).2.1.read ((cpuC6w.reg_sp + 0xFFFE) % 0x10000) =
       cpuC6w.reg_pc % 256 ∧
     (cpuC6w.handle_interrupts interC6w).2.1.read ((cpuC6w.reg_sp + 0xFFFF) % 0x10000) =
       cpuC6w.reg_pc / 256 % 256) ∧
    ((Cpu.new.handle_interrupts interC6w).2.2 = 0 ∧
     (Cpu.new.handle_interrupts interC6w).1.reg_pc = Cpu.new.reg_pc ∧
     (Cpu.new.handle_interrupts interC6w).1.reg_sp = Cpu.new.reg_sp ∧
     (Cpu.new.handle_interrupts interC6w).2.1 = interC6w) :=
  ⟨(C6_amended_dispatch cpuC6w interC6w).1 2 (by decide) (by decide) (by decide)
      (by decide) (by decide) (by decide) (by decide),
   (C6_amended_dispatch Cpu.new interC6w).2 (Or.inl ⟨rfl, rfl⟩)⟩

/-! ## C5 — EI / DI and the IME commit point -/

/-- CPU about to execute EI (0xFB) at 0xC000; IME off. -/
def cpuEi : Cpu := { Cpu.new with reg_pc := 0xC000, reg_sp := 0xD000 }

/-- Bus with EI at 0xC000 and a VBlank interrupt already pending
(IF bit 0 and IE bit 0 set). -/
def interEi : Interconnect :=
  { interBase with
    wram := (fun i => if i = 0 then 0xFB else 0),
    if_register := 0xE1, ie_register := 0x01 }

/-- The CPU state after the EI instruction retires. -/
def cpuAfterEi : Cpu := { cpuEi with reg_pc := 0xC001, ime_pending := true }

/-- C5: EI sets only ime_pending (IME stays false, 4 cycles) and DI clears
both — but the interrupt-handling step that runs BEFORE the next instruction
commits ime_pending to IME and immediately dispatches: it consumes 20 cycles
and jumps to 0x40, so the instruction after EI does not execute first, contrary
to the claim's "IME becomes true only after the next instruction retires". -/
theorem C5_ei_commit_dispatches_before_next_instruction :
    Cpu.execute_next_opcode cpuEi interEi = some (cpuAfterEi, interEi, 4) ∧
    cpuAfterEi.ime = false ∧ cpuAfterEi.ime_pending = true ∧
    interEi.pending_interrupts ≠ 0 ∧
    (cpuAfterEi.handle_interrupts interEi).2.2 = 20 ∧
    (cpuAfterEi.handle_interrupts interEi).1.reg_pc = 0x40 ∧
    (cpuAfterEi.handle_interrupts interEi).1.ime = false ∧
    (Cpu.execute_opcode { cpuEi with ime := true, ime_pending := true } interEi 0xF3).map
      (fun r => (r.1.ime, r.1.ime_pending, r.2.2)) = some (false, false, 4) := by
  refine ⟨rfl, rfl, rfl, by decide, ?_, ?_, ?_, rfl⟩ <;> rfl

/-! ## C8 — timer overflow after exactly one threshold period -/

/-- One pass of the TIMA loop from 0xFF with the accumulator holding exactly
one threshold: TIMA reloads from TMA, the accumulator drains to 0, and the
interrupt latch is raised. -/
theorem step_loop_overflow (tma clock : Nat) (irq : Bool) :
    Timer.step_loop 255 tma clock (TIMER_CLOCKS clock) irq = (tma, 0, true) := by
  rw [Timer.step_loop]
  rw [dif_pos (le_refl (TIMER_CLOCKS clock)), if_pos rfl, Nat.sub_self]
  rw [Timer.step_loop]
  rw [dif_neg (by have := TIMER_CLOCKS_pos clock; omega)]

/-- Setting bit 2 (`IF |= 0x04`) makes bit 2 read as 1. -/
theorem orBit4_bit2 (x : Nat) : orBit x 4 / 4 % 2 = 1 := by
  unfold orBit; split_ifs <;> omega

/-- Setting bit 0 (`IF |= 0x01`) leaves bit 2 unchanged. -/
theorem orBit1_bit2 (x : Nat) : orBit x 1 / 4 % 2 = x / 4 % 2 := by
  unfold orBit; split_ifs <;> omega

/-- Setting bit 0 makes bit 0 read as 1. -/
theorem orBit1_bit0 (x : Nat) : orBit x 1 % 2 = 1 := by
  unfold orBit; split_ifs <;> omega

/-- Setting bit 2 leaves bit 0 unchanged. -/
theorem orBit4_bit0 (x : Nat) : orBit x 4 % 2 = x % 2 := by
  unfold orBit; split_ifs <;> omega

/-- C8: with the timer enabled (TAC bit 2), TIMA = 0xFF and the internal
accumulator at 0, ticking the bus by exactly threshold(TAC) T-cycles reloads
TIMA from TMA and sets bit 2 of IF. -/
theorem C8_tima_overflow_reloads_and_interrupts (s : Interconnect)
    (hen : s.timer.tac / 4 % 2 = 1)
    (htima : s.timer.tima = 0xFF)
    (hacc : s.timer.tima_counter = 0) :
    (s.step (TIMER_CLOCKS (s.timer.tac % 4))).timer.tima = s.timer.tma ∧
    (s.step (TIMER_CLOCKS (s.timer.tac % 4))).if_register / 4 % 2 = 1 := by
  have htimer : s.timer.step (TIMER_CLOCKS (s.timer.tac % 4)) =
      { s.timer with
          div_counter := (s.timer.div_counter + TIMER_CLOCKS (s.timer.tac % 4) % 65536) % 65536,
          tima := s.timer.tma, tima_counter := 0, interrupt_requested := true } := by
    simp only [Timer.step]
    rw [if_pos hen, htima, hacc, Nat.zero_add, step_loop_overflow]
  simp only [Interconnect.step, htimer]
  by_cases hv : (s.ppu.step (TIMER_CLOCKS (s.timer.tac % 4))).2 = true
  · rw [if_pos trivial, if_pos hv]
    exact ⟨rfl, by rw [orBit1_bit2, orBit4_bit2]⟩
  · rw [if_pos trivial, if_neg hv]
    exact ⟨rfl, by rw [orBit4_bit2]⟩

/-- Concrete timer state for the C8 witness: TAC = 5 (enabled, clock 01,
threshold 16), TIMA = 0xFF, TMA = 0xAB. -/
def interC8 : Interconnect :=
  { interBase with timer := { Timer.new with tac := 5, tima := 0xFF, tma := 0xAB } }

/-- C8 witness: the theorem applied to the concrete timer state. -/
theorem C8_tima_overflow_witness :
    interC8.timer.tac / 4 % 2 = 1 ∧
    (interC8.step (TIMER_CLOCKS (interC8.timer.tac % 4))).timer.tima = interC8.timer.tma ∧
    (interC8.step (TIMER_CLOCKS (interC8.timer.tac % 4))).if_register / 4 % 2 = 1 :=
  ⟨by decide,
   C8_tima_overflow_reloads_and_interrupts interC8 (by decide) (by decide) (by decide)⟩

/-! ## C7 — frame_ready latch and VBlank interrupt -/

/-- Shifting the scanline-crossing existential across one LY increment when the
current line is not 143. -/
theorem crossed_shift (ly n : Nat) (hly : ly < 154) (hne : ly ≠ 143) :
    (∃ k, k < n ∧ ((ly + 1) % 154 + k) % 154 = 143) ↔
    (∃ k, k < n + 1 ∧ (ly + k) % 154 = 143) := by
  constructor
  · rintro ⟨k, hk, hm⟩
    exact ⟨k + 1, by omega, by omega⟩
  · rintro ⟨k, hk, hm⟩
    rcases k with _ | k
    · omega
    · exact ⟨k, by omega, by omega⟩

/-- Characterization of the scanline loop: after consuming `sc` accumulated
cycles it performs `sc / 456` LY increments; the entered-VBlank flag and the
frame_ready latch become true exactly when one of those increments crosses
LY = 143 → 144. -/
theorem stepLoop_spec (sc : Nat) : ∀ (p : Ppu) (e : Bool),
    p.scanline_cycles = sc → p.ly < 154 →
    (Ppu.stepLoop p e).1.ly = (p.ly + sc / 456) % 154 ∧
    (Ppu.stepLoop p e).1.scanline_cycles = sc % 456 ∧
    ((Ppu.stepLoop p e).2 = true ↔
      (e = true ∨ ∃ k, k < sc / 456 ∧ (p.ly + k) % 154 = 143)) ∧
    ((Ppu.stepLoop p e).1.frame_ready = true ↔
      (p.frame_ready = true ∨ ∃ k, k < sc / 456 ∧ (p.ly + k) % 154 = 143)) := by
  induction sc using Nat.strong_induction_on with
  | _ sc ih =>
    intro p e hsc hly
    rw [Ppu.stepLoop]
    by_cases h : 456 ≤ p.scanline_cycles
    · rw [dif_pos h]
      by_cases hc : (p.ly + 1) % 154 = 144 ∧ p.ly ≠ 144
      · rw [if_pos hc]
        have hly143 : p.ly = 143 := by omega
        obtain ⟨ih1, ih2, ih3, ih4⟩ :=
          ih (sc - 456) (by omega)
            { p with scanline_cycles := p.scanline_cycles - 456,
                     ly := (p.ly + 1) % 154, frame_ready := true } true
            (by show p.scanline_cycles - 456 = sc - 456; omega)
            (by show (p.ly + 1) % 154 < 154; exact Nat.mod_lt _ (by norm_num))
        refine ⟨?_, ?_, ?_, ?_⟩
        · rw [ih1]
          show ((p.ly + 1) % 154 + (sc - 456) / 456) % 154 = (p.ly + sc / 456) % 154
          omega
        · rw [ih2]
          omega
        · rw [ih3]
          constructor
          · intro _
            exact Or.inr ⟨0, by omega, by omega⟩
          · intro _
            exact Or.inl rfl
        · rw [ih4]
          constructor
          · intro _
            exact Or.inr ⟨0, by omega, by omega⟩
          · intro _
            exact Or.inl rfl
      · rw [if_neg hc]
        have hne : p.ly ≠ 143 := by
          intro he
          exact hc ⟨by omega, by omega⟩
        obtain ⟨ih1, ih2, ih3, ih4⟩ :=
          ih (sc - 456) (by omega)
            { p with scanline_cycles := p.scanline_cycles - 456,
                     ly := (p.ly + 1) % 154 } e
            (by show p.scanline_cycles - 456 = sc - 456; omega)
            (by show (p.ly + 1) % 154 < 154; exact Nat.mod_lt _ (by norm_num))
        have hsub : (sc - 456) / 456 = sc / 456 - 1 := by omega
        have hnn : sc / 456 - 1 + 1 = sc / 456 := by omega
        refine ⟨?_, ?_, ?_, ?_⟩
        · rw [ih1]
          show ((p.ly + 1) % 154 + (sc - 456) / 456) % 154 = (p.ly + sc / 456) % 154
          omega
        · rw [ih2]
          omega
        · rw [ih3]
          show (e = true ∨ ∃ k, k < (sc - 456) / 456 ∧ ((p.ly + 1) % 154 + k) % 154 = 143) ↔
            (e = true ∨ ∃ k, k < sc / 456 ∧ (p.ly + k) % 154 = 143)
          simp only [hsub]
          constructor
          · rintro (he | hex)
            · exact Or.inl he
            · have := (crossed_shift p.ly (sc / 456 - 1) hly hne).mp hex
              simp only [hnn] at this
              exact Or.inr this
          · rintro (he | hex)
            · exact Or.inl he
            · have hex2 : ∃ k, k < sc / 456 - 1 + 1 ∧ (p.ly + k) % 154 = 143 := by
                simpa only [hnn] using hex
              exact Or.inr ((crossed_shift p.ly (sc / 456 - 1) hly hne).mpr hex2)
        · rw [ih4]
          show (p.frame_ready = true ∨
              ∃ k, k < (sc - 456) / 456 ∧ ((p.ly + 1) % 154 + k) % 154 = 143) ↔
            (p.frame_ready = true ∨ ∃ k, k < sc / 456 ∧ (p.ly + k) % 154 = 143)
          simp only [hsub]
          constructor
          · rintro (he | hex)
            · exact Or.inl he
            · have := (crossed_shift p.ly (sc / 456 - 1) hly hne).mp hex
              simp only [hnn] at this
              exact Or.inr this
          · rintro (he | hex)
            · exact Or.inl he
            · have hex2 : ∃ k, k < sc / 456 - 1 + 1 ∧ (p.ly + k) % 154 = 143 := by
                simpa only [hnn] using hex
              exact Or.inr ((crossed_shift p.ly (sc / 456 - 1) hly hne).mpr hex2)
    · rw [dif_neg h]
      refine ⟨?_, ?_, ?_, ?_⟩
      · show p.ly = (p.ly + sc / 456) % 154
        omega
      · show p.scanline_cycles = sc % 456
        omega
      · constructor
        · exact fun he => Or.inl he
        · rintro (he | ⟨k, hk, hm⟩)
          · exact he
          · omega
      · constructor
        · exact fun he => Or.inl he
        · rintro (he | ⟨k, hk, hm⟩)
          · exact he
          · omega

/-- update_mode only recomputes the mode bits. -/
theorem update_mode_frame_ready (p : Ppu) : (Ppu.update_mode p).frame_ready = p.frame_ready :=
  rfl

/-- Ppu::step with the LCD enabled: it reports entering VBlank exactly when
one of the completed scanlines crosses LY 143 → 144, and frame_ready is sticky
and set exactly on such a crossing. -/
theorem Ppu.step_spec (p : Ppu) (c : Nat) (hlcd : p.lcd_enabled = true) (hly : p.ly < 154) :
    ((p.step c).2 = true ↔
      ∃ k, k < (p.scanline_cycles + c) / 456 ∧ (p.ly + k) % 154 = 143) ∧
    ((p.step c).1.frame_ready = true ↔
      (p.frame_ready = true ∨
        ∃ k, k < (p.scanline_cycles + c) / 456 ∧ (p.ly + k) % 154 = 143)) := by
  unfold Ppu.step
  rw [if_neg (by simp [hlcd])]
  obtain ⟨h1, h2, h3, h4⟩ :=
    stepLoop_spec (p.scanline_cycles + c)
      { p with scanline_cycles := p.scanline_cycles + c } false
      (by show p.scanline_cycles + c = p.scanline_cycles + c; rfl)
      (by show p.ly < 154; exact hly)
  constructor
  · dsimp only
    rw [h3]
    show (false = true ∨ ∃ k, k < (p.scanline_cycles + c) / 456 ∧ (p.ly + k) % 154 = 143) ↔
      ∃ k, k < (p.scanline_cycles + c) / 456 ∧ (p.ly + k) % 154 = 143
    simp
  · dsimp only
    rw [update_mode_frame_ready, h4]

/-- C7: over any tick of the bus with the LCD enabled, frame_ready is set
exactly when some completed scanline crosses LY 143 → 144 in that tick
(and stays set once latched, until the host clears it), and the VBlank bit
of IF is ORed in exactly on a tick containing such a crossing — in
particular never again while LY stays inside VBlank. -/
theorem C7_frame_ready_and_vblank_if_bit (s : Interconnect) (c : Nat)
    (hlcd : s.ppu.lcd_enabled = true) (hly : s.ppu.ly < 154) :
    ((s.step c).ppu.frame_ready = true ↔
      (s.ppu.frame_ready = true ∨
        ∃ k, k < (s.ppu.scanline_cycles + c) / 456 ∧ (s.ppu.ly + k) % 154 = 143)) ∧
    ((s.step c).if_register % 2 = 1 ↔
      (s.if_register % 2 = 1 ∨
        ∃ k, k < (s.ppu.scanline_cycles + c) / 456 ∧ (s.ppu.ly + k) % 154 = 143)) := by
  obtain ⟨hs1, hs2⟩ := Ppu.step_spec s.ppu c hlcd hly
  have hncross : ¬((s.ppu.step c).2 = true) →
      ¬∃ k, k < (s.ppu.scanline_cycles + c) / 456 ∧ (s.ppu.ly + k) % 154 = 143 :=
    fun hnv hex => hnv (hs1.mpr hex)
  simp only [Interconnect.step]
  by_cases ht : (s.timer.step c).interrupt_requested = true
  · by_cases hv : (s.ppu.step c).2 = true
    · rw [if_pos ht, if_pos hv]
      refine ⟨hs2, ?_⟩
      constructor
      · intro _
        exact Or.inr (hs1.mp hv)
      · intro _
        exact orBit1_bit0 _
    · rw [if_pos ht, if_neg hv]
      refine ⟨hs2, ?_⟩
      rw [orBit4_bit0]
      constructor
      · exact fun hb => Or.inl hb
      · rintro (hb | hex)
        · exact hb
        · exact absurd hex (hncross hv)
  · by_cases hv : (s.ppu.step c).2 = true
    · rw [if_neg ht, if_pos hv]
      refine ⟨hs2, ?_⟩
      constructor
      · intro _
        exact Or.inr (hs1.mp hv)
      · intro _
        exact orBit1_bit0 _
    · rw [if_neg ht, if_neg hv]
      refine ⟨hs2, ?_⟩
      constructor
      · exact fun hb => Or.inl hb
      · rintro (hb | hex)
        · exact hb
        · exact absurd hex (hncross hv)

/-- PPU at LY = 143 with one cycle left in the scanline (LCD on, per Ppu::new). -/
def ppuC7 : Ppu := { Ppu.new with ly := 143, scanline_cycles := 455 }

def interC7 : Interconnect := { interBase with ppu := ppuC7 }

/-- C7 witness: the theorem applied at LY = 143, accumulator 455, one cycle. -/
theorem C7_frame_ready_witness :
    interC7.ppu.lcd_enabled = true ∧ interC7.ppu.ly < 154 ∧
    (((interC7.step 1).ppu.frame_ready = true ↔
      (interC7.ppu.frame_ready = true ∨
        ∃ k, k < (interC7.ppu.scanline_cycles + 1) / 456 ∧ (interC7.ppu.ly + k) % 154 = 143)) ∧
     ((interC7.step 1).if_register % 2 = 1 ↔
      (interC7.if_register % 2 = 1 ∨
        ∃ k, k < (interC7.ppu.scanline_cycles + 1) / 456 ∧ (interC7.ppu.ly + k) % 154 = 143))) :=
  ⟨by decide, by decide, C7_frame_ready_and_vblank_if_bit interC7 1 (by decide) (by decide)⟩

end GbEmu
